import Mathlib

set_option maxHeartbeats 1000000

/-!
Verification of the agno-client core: a shallow embedding of
`packages/core/src/processors/event-processor.ts`,
`packages/core/src/client.ts`, `packages/core/src/managers/session-manager.ts`
and (modelled from the spec, the file being absent from the sources)
the stream decoder of §4.1, together with proofs about the claims of the
specification.

JavaScript conventions used throughout the embedding:
an optional / possibly-absent field is an `Option`; JS truthiness of a
string is "present and non-empty", of a number "present, finite and non-zero"
(`NaN` is falsy), of a bool "present and true"; object spread
`{...old, ...new}` keeps a field of `old` only when `new` lacks it.
-/

namespace Agno

/-- A JS number as it matters here: finite (modelled as an integer number of
unix seconds / milliseconds), `NaN`, or an infinity. -/
inductive NumVal where
  | fin (x : Int)
  | nan
  | posInf
  | negInf
deriving DecidableEq

/-- A JSON content value carried by a frame: a string, a non-string non-null
JSON value (kept abstract, carrying its `JSON.stringify(v, null, 2)` rendering
and its `JSON.stringify(v)` rendering), or JSON `null`. -/
inductive CVal where
  | str (s : String)
  | jsonv (pretty : String) (compact : String)
  | null
deriving DecidableEq

/-- JS truthiness of an optional string: present and non-empty. -/
def truthyOS : Option String → Bool
  | some s => !s.isEmpty
  | none => false

/-- JS truthiness of an optional number: present and non-zero. -/
def truthyOI : Option Int → Bool
  | some n => n != 0
  | none => false

/-- JS truthiness of an optional boolean: present and `true`. -/
def truthyOB : Option Bool → Bool
  | some b => b
  | none => false

/-- JS template-literal rendering of a possibly-absent string
(an absent value renders as the text `undefined`). -/
def optStr : Option String → String
  | some s => s
  | none => "undefined"

/-- JS template-literal rendering of a possibly-absent number. -/
def optIntStr : Option Int → String
  | some n => toString n
  | none => "undefined"

/-- JS string concatenation, kept on the character-list level so that
reasoning stays purely list-based. -/
def strCat (a b : String) : String := String.mk (a.data ++ b.data)

/-- JS `a ?? b` / object-spread field resolution: the first operand wins
when it is present. -/
def ov {α : Type} : Option α → Option α → Option α
  | some v, _ => some v
  | none, old => old

/-- A tool call as it travels on the wire and in the ledger
(`ToolCall` of the types package; every field optional, matching a
JSON-derived object where absent properties are truly absent). -/
structure ToolCall where
  tool_call_id : Option String := none
  tool_name : Option String := none
  tool_args : Option String := none
  result : Option String := none
  content : Option String := none
  tool_call_error : Option Bool := none
  metricsTime : Option Int := none
  created_at : Option Int := none
  role : Option String := none
  ui_component : Option String := none
deriving DecidableEq, Inhabited

/-- JS object spread `{...old, ...incoming}`: every field of `incoming`
that is present overwrites the corresponding field of `old`. -/
def mergeTC (old incoming : ToolCall) : ToolCall where
  tool_call_id := ov incoming.tool_call_id old.tool_call_id
  tool_name := ov incoming.tool_name old.tool_name
  tool_args := ov incoming.tool_args old.tool_args
  result := ov incoming.result old.result
  content := ov incoming.content old.content
  tool_call_error := ov incoming.tool_call_error old.tool_call_error
  metricsTime := ov incoming.metricsTime old.metricsTime
  created_at := ov incoming.created_at old.created_at
  role := ov incoming.role old.role
  ui_component := ov incoming.ui_component old.ui_component

/-- The template-literal fallback identity
`` `${tc.tool_name}-${tc.created_at}` `` of `processToolCall`. -/
def fallbackKey (tc : ToolCall) : String :=
  optStr tc.tool_name ++ "-" ++ optIntStr tc.created_at

/-- The identity `toolCall.tool_call_id || fallback` of `processToolCall`
(an empty id is falsy, so the fallback key is used). -/
def tcKey (toolCall : ToolCall) : String :=
  if truthyOS toolCall.tool_call_id then toolCall.tool_call_id.getD ""
  else fallbackKey toolCall

/-- The `findIndex` predicate of `processToolCall`
(`event-processor.ts` lines 21–28): the entry `tc` matches the incoming
`toolCall` when it has a truthy id equal to the incoming id, or when it has
no truthy id, the incoming name and timestamp are truthy, and the entry's
fallback key equals the incoming identity. -/
def tcMatches (toolCall tc : ToolCall) : Bool :=
  (truthyOS tc.tool_call_id && tc.tool_call_id == toolCall.tool_call_id) ||
  (!truthyOS tc.tool_call_id && truthyOS toolCall.tool_name &&
    truthyOI toolCall.created_at && (fallbackKey tc == tcKey toolCall))

/-- JS `Array.prototype.findIndex`: index of the first element satisfying
the predicate. -/
def jsFindIndex {α : Type} (p : α → Bool) : List α → Option Nat
  | [] => none
  | a :: l => if p a then some 0 else (jsFindIndex p l).map (· + 1)

/-- Source `processToolCall` (`event-processor.ts` lines 14–40): merge a tool call
into the list, overwriting in place the first matching entry, appending when
no entry matches. -/
def processToolCall (toolCall : ToolCall) (prevToolCalls : List ToolCall := []) :
    List ToolCall :=
  match jsFindIndex (tcMatches toolCall) prevToolCalls with
  | some i => prevToolCalls.set i (mergeTC (prevToolCalls.getD i default) toolCall)
  | none => prevToolCalls ++ [toolCall]

/-- A single-pass rendering of find-first-match/overwrite/append, used to
reason about `processToolCall`; proved equal to it below. -/
def mergeAux (toolCall : ToolCall) (p : ToolCall → Bool) : List ToolCall → List ToolCall
  | [] => [toolCall]
  | e :: rest => if p e then mergeTC e toolCall :: rest else e :: mergeAux toolCall p rest

/-- A raw tool record as it appears in a bulk history response, both in a
run's direct `tools` array and in its `reasoning_messages` array
(`session-manager.ts` lines 145–180). -/
structure ToolRec where
  content : Option String := none
  tool_call_id : Option String := none
  tool_name : Option String := none
  tool_args : Option String := none
  tool_call_error : Option Bool := none
  metricsTime : Option Int := none
  created_at : Option Int := none
  role : Option String := none
deriving DecidableEq

/-- One entry of the streamed `generated_ui` list, merged by
`tool_call_id` (`event-processor.ts` lines 140–166); the payload is opaque. -/
structure GUIData where
  tool_call_id : String
  payload : String
deriving DecidableEq

/-- The `extra_data` record of a message or frame. `reasoning_steps` entries
and `references` are opaque to the reducer beyond the merge rules and are
abstracted to strings. `reasoning_messages` only ever appears via the
session hydrator. -/
structure ExtraData where
  reasoning_steps : Option (List String) := none
  references : Option String := none
  generated_ui : Option (List GUIData) := none
  reasoning_messages : Option (List ToolRec) := none
deriving DecidableEq

/-- The `response_audio` object; only its string transcript is relevant to
the reducer. -/
structure RespAudio where
  transcript : Option String := none
deriving DecidableEq

/-- The protocol event of a frame (the `RunEvent` enum of the types package;
`OtherEvent` stands for any event name outside the switch, which falls
through every case). -/
inductive RunEvent where
  | RunStarted | TeamRunStarted | ReasoningStarted | TeamReasoningStarted
  | ToolCallStarted | TeamToolCallStarted | ToolCallCompleted | TeamToolCallCompleted
  | RunContent | TeamRunContent
  | ReasoningStep | TeamReasoningStep | ReasoningCompleted | TeamReasoningCompleted
  | RunCompleted | TeamRunCompleted
  | UpdatingMemory | TeamMemoryUpdateStarted | TeamMemoryUpdateCompleted
  | RunPaused | RunError | TeamRunError | TeamRunCancelled
  | OtherEvent
deriving DecidableEq

/-- A decoded wire frame (`RunResponse` of the types package, §6 of the
spec); every field except the event is optional. -/
structure RunResponse where
  event : RunEvent
  content : Option CVal := none
  tool : Option ToolCall := none
  tools : Option (List ToolCall) := none
  session_id : Option String := none
  run_id : Option String := none
  created_at : Option NumVal := none
  extra_data : Option ExtraData := none
  images : Option String := none
  videos : Option String := none
  audio : Option String := none
  response_audio : Option RespAudio := none
  tools_awaiting_external_execution : Option (List ToolCall) := none
  tools_requiring_confirmation : Option (List ToolCall) := none
  tools_requiring_user_input : Option (List ToolCall) := none
deriving DecidableEq

/-- A conversation message (`ChatMessage` of the types package). `content`
is `none` exactly when the JS value is `undefined` (reachable through a
`RunCompleted` frame with absent content). Media fields are opaque. -/
structure ChatMessage where
  role : String
  content : Option String := some ""
  tool_calls : Option (List ToolCall) := none
  streamingError : Option Bool := none
  created_at : Option NumVal := none
  extra_data : Option ExtraData := none
  images : Option String := none
  videos : Option String := none
  audio : Option String := none
  response_audio : Option RespAudio := none
deriving DecidableEq, Inhabited

/-- The empty `extra_data` object produced by spreading an `undefined`
`extra_data` (`{...undefined, f: v}` is `{f: v}`). -/
def edDflt : ExtraData := {}

/-- The empty `response_audio` object produced by spreading an `undefined`
`response_audio`. -/
def raDflt : RespAudio := {}

/-- Source `getJsonMarkdown` (`utils/json-markdown.ts`): wrap a rendered JSON value
in a fenced code block. The argument is already the
`JSON.stringify(content, null, 2)` rendering (for a frame with absent
content it is the JS text `undefined`); the catch branch is unreachable for
JSON-derived values. -/
def getJsonMarkdown (rendered : String) : String :=
  strCat (strCat "```json\n" rendered) "\n```"

/-- Source `processChunkToolCalls` (`event-processor.ts` lines 45–62): merge the
frame's single `tool` and then each entry of its `tools` array into the
existing list. -/
def processChunkToolCalls (chunk : RunResponse) (existingToolCalls : List ToolCall := []) :
    List ToolCall :=
  let u := existingToolCalls
  let u := match chunk.tool with
    | some t => processToolCall t u
    | none => u
  match chunk.tools with
  | some ts => if ts.length > 0 then ts.foldl (fun acc t => processToolCall t acc) u else u
  | none => u

/-- The `generated_ui` merge of the RunContent branch: same `tool_call_id`
overwrites (spread of total objects), unseen id appends. -/
def mergeGenUI (existingUI incoming : List GUIData) : List GUIData :=
  incoming.foldl (fun acc u =>
    match jsFindIndex (fun v => v.tool_call_id == u.tool_call_id) acc with
    | some i => acc.set i u
    | none => acc ++ [u]) existingUI

/-- First-occurrence search-and-delete, the helper of `jsReplaceFirst`:
`some` of the input with the first occurrence of the pattern removed, `none`
when the pattern does not occur. -/
def replFirstAux (pat : List Char) : List Char → Option (List Char)
  | [] => if pat.isPrefixOf ([] : List Char) then some [] else none
  | c :: rest =>
    if pat.isPrefixOf (c :: rest) then some ((c :: rest).drop pat.length)
    else (replFirstAux pat rest).map (fun l => c :: l)

/-- JS `s.replace(pat, '')` with a string pattern: remove the first
occurrence of `pat`; the string is unchanged when `pat` does not occur
(and when `pat` is empty, since the empty pattern matches at offset 0). -/
def jsReplaceFirst (s pat : String) : String :=
  String.mk ((replFirstAux pat.data s.data).getD s.data)

/-- JS string coercion of a message's content for `content + suffix`
(an `undefined` content concatenates as the text `undefined`). -/
def jsGet (c : Option String) : String := c.getD "undefined"

/-- Source `EventProcessor.processChunk` (`event-processor.ts` lines 73–266).
The processor's private `lastContent` accumulator is threaded explicitly:
the function maps the accumulator, the frame and the current last message to
the new accumulator and the updated message. A missing last message or a
non-agent last message is returned unchanged (lines 77–79). -/
def processChunk (lastContent : String) (chunk : RunResponse)
    (lastMessage : Option ChatMessage) : String × Option ChatMessage :=
  match lastMessage with
  | none => (lastContent, none)
  | some lm =>
    if lm.role ≠ "agent" then (lastContent, some lm)
    else
      match chunk.event with
      | .RunStarted | .TeamRunStarted | .ReasoningStarted | .TeamReasoningStarted =>
        (lastContent, some lm)
      | .ToolCallStarted | .TeamToolCallStarted | .ToolCallCompleted | .TeamToolCallCompleted =>
        (lastContent, some { lm with
          tool_calls := some (processChunkToolCalls chunk (lm.tool_calls.getD [])) })
      | .RunContent | .TeamRunContent =>
        let cnSt : Option String × String :=
          match chunk.content with
          | some (.str s) =>
            (some (strCat (jsGet lm.content) (jsReplaceFirst s lastContent)), s)
          | some (.jsonv pretty _) =>
            (some (strCat (jsGet lm.content) (getJsonMarkdown pretty)), getJsonMarkdown pretty)
          | some .null => (lm.content, lastContent)
          | none =>
            (some (strCat (jsGet lm.content) (getJsonMarkdown "undefined")),
              getJsonMarkdown "undefined")
        let ed1 : Option ExtraData :=
          match chunk.extra_data.bind (fun e => e.reasoning_steps) with
          | some rs => some { lm.extra_data.getD edDflt with reasoning_steps := some rs }
          | none => lm.extra_data
        let ed2 : Option ExtraData :=
          match chunk.extra_data.bind (fun e => e.references) with
          | some rf => some { ed1.getD edDflt with references := some rf }
          | none => ed1
        let ed3 : Option ExtraData :=
          match chunk.extra_data.bind (fun e => e.generated_ui) with
          | some gu =>
            let mergedUI := mergeGenUI ((ed2.bind (fun e => e.generated_ui)).getD []) gu
            some { ed2.getD edDflt with generated_ui := some mergedUI }
          | none => ed2
        let ra : Option RespAudio :=
          match chunk.response_audio with
          | some cra =>
            match cra.transcript with
            | some t =>
              if !t.isEmpty then
                let newT := strCat ((lm.response_audio.bind (fun r => r.transcript)).getD "") t
                some { lm.response_audio.getD raDflt with transcript := some newT }
              else lm.response_audio
            | none => lm.response_audio
          | none => lm.response_audio
        (cnSt.2, some { lm with
          content := cnSt.1,
          tool_calls := some (processChunkToolCalls chunk (lm.tool_calls.getD [])),
          extra_data := ed3,
          created_at := ov chunk.created_at lm.created_at,
          images := ov chunk.images lm.images,
          videos := ov chunk.videos lm.videos,
          audio := ov chunk.audio lm.audio,
          response_audio := ra })
      | .ReasoningStep | .TeamReasoningStep =>
        let existingSteps := (lm.extra_data.bind (fun e => e.reasoning_steps)).getD []
        let incomingSteps := (chunk.extra_data.bind (fun e => e.reasoning_steps)).getD []
        let ed := { lm.extra_data.getD edDflt with
          reasoning_steps := some (existingSteps ++ incomingSteps) }
        (lastContent, some { lm with extra_data := some ed })
      | .ReasoningCompleted | .TeamReasoningCompleted =>
        match chunk.extra_data.bind (fun e => e.reasoning_steps) with
        | some rs =>
          let ed := { lm.extra_data.getD edDflt with reasoning_steps := some rs }
          (lastContent, some { lm with extra_data := some ed })
        | none => (lastContent, some lm)
      | .RunCompleted | .TeamRunCompleted =>
        let newContent : Option String :=
          match chunk.content with
          | some (.str s) => some s
          | some (.jsonv _ compact) => some compact
          | some .null => some "null"
          | none => none
        (lastContent, some { lm with
          content := newContent,
          tool_calls := some (processChunkToolCalls chunk (lm.tool_calls.getD [])),
          images := ov chunk.images lm.images,
          videos := ov chunk.videos lm.videos,
          response_audio := chunk.response_audio,
          created_at := ov chunk.created_at lm.created_at,
          extra_data := some {
            reasoning_steps := ov (chunk.extra_data.bind (fun e => e.reasoning_steps))
              (lm.extra_data.bind (fun e => e.reasoning_steps)),
            references := ov (chunk.extra_data.bind (fun e => e.references))
              (lm.extra_data.bind (fun e => e.references)),
            generated_ui := ov (chunk.extra_data.bind (fun e => e.generated_ui))
              (lm.extra_data.bind (fun e => e.generated_ui)) } })
      | .UpdatingMemory | .TeamMemoryUpdateStarted | .TeamMemoryUpdateCompleted =>
        (lastContent, some lm)
      | .RunPaused => (lastContent, some lm)
      | .RunError | .TeamRunError | .TeamRunCancelled =>
        (lastContent, some { lm with streamingError := some true })
      | .OtherEvent => (lastContent, some lm)

/-- A known session (`SessionEntry`): id, display name, and creation
timestamp. The timestamp is kept as the epoch-millisecond value whose ISO
rendering the code stores (ISO rendering is injective on milliseconds). -/
structure SessionEntry where
  session_id : String
  session_name : String
  created_at : Int
deriving DecidableEq

/-- The per-client run state (`ClientState` of the types package, restricted
to the fields the core mutates; `agents`, `teams` and `isEndpointActive` are
endpoint caches untouched by the run loop). -/
structure ClientState where
  isStreaming : Bool := false
  isPaused : Bool := false
  pausedRunId : Option String := none
  toolsAwaitingExecution : Option (List ToolCall) := none
  errorMessage : Option String := none
  sessions : List SessionEntry := []
deriving DecidableEq

/-- The configured mode: agent or team endpoints. -/
inductive Mode where
  | agent
  | team
deriving DecidableEq

/-- The slice of `AgnoClientConfig` the run loop consults: the mode, and
whether an entity id for that mode is configured (`getRunUrl` returns a URL
exactly when it is). -/
structure Config where
  mode : Mode := .agent
  hasEntity : Bool := true
deriving DecidableEq

/-- One client instance: configuration, run state, the message ledger, and
the event processor's `lastContent` accumulator. The pending-UI-spec map is
not modelled: it is empty unless the UI hydration API is used, which no
claim involves. -/
structure Client where
  config : Config
  state : ClientState := {}
  messages : List ChatMessage := []
  procLastContent : String := ""
deriving DecidableEq

/-- A fresh client (`AgnoClient` constructor). -/
def initClient (config : Config) : Client := { config := config }

/-- Constant `946684800000`, epoch milliseconds of 2000-01-01 (`client.ts` line 28). -/
def MIN_TIMESTAMP : Int := 946684800000

/-- Constant `4102444800000`, epoch milliseconds of 2100-01-01 (`client.ts` line 29). -/
def MAX_TIMESTAMP : Int := 4102444800000

/-- Source `toSafeISOString` (`client.ts` lines 23–37), returning the
epoch-millisecond value whose ISO rendering the code returns. `now` is
`Date.now()`. A falsy timestamp (absent, zero, or NaN) falls back to `now`
before the range check; a finite timestamp is scaled to milliseconds; an
out-of-range or non-finite scaled value is replaced by `now`. -/
def toSafeISOString (now : Int) (timestamp : Option NumVal) : Int :=
  let ts : NumVal :=
    match timestamp with
    | some (.fin x) => if x ≠ 0 then .fin (x * 1000) else .fin now
    | some .nan => .fin now
    | some .posInf => .posInf
    | some .negInf => .negInf
    | none => .fin now
  match ts with
  | .fin v => if v < MIN_TIMESTAMP ∨ v > MAX_TIMESTAMP then now else v
  | .nan => now
  | .posInf => now
  | .negInf => now

/-- Source `MessageStore.updateLastMessage`: apply the updater to the last message;
an empty store is unchanged. -/
def updateLastMessage (f : ChatMessage → ChatMessage) : List ChatMessage → List ChatMessage
  | [] => []
  | [m] => [f m]
  | m :: rest => m :: updateLastMessage f rest

/-- Source `MessageStore.removeLastMessages`: `slice(0, -count)`. -/
def removeLastMessages (count : Nat) (ms : List ChatMessage) : List ChatMessage :=
  ms.take (ms.length - count)

/-- The read `messages[messages.length - 2]` — `undefined` when fewer than two
messages exist (a negative JS index reads as `undefined`). -/
def secondLastMessage (ms : List ChatMessage) : Option ChatMessage :=
  if ms.length ≥ 2 then ms.get? (ms.length - 2) else none

/-- The session-creating events of `handleChunk` (`client.ts` lines 228–233):
run/reasoning started, singular and team forms. -/
def isStartedEvent : RunEvent → Bool
  | .RunStarted | .TeamRunStarted | .ReasoningStarted | .TeamReasoningStarted => true
  | _ => false

/-- The terminal error events of `handleChunk` (`client.ts` lines 274–278). -/
def isErrorChunkEvent : RunEvent → Bool
  | .RunError | .TeamRunError | .TeamRunCancelled => true
  | _ => false

/-- JS `!currentSessionId || currentSessionId !== chunk.session_id`:
the frame's session id counts as new when no current id is set (or it is
empty, hence falsy), or it differs from the current id. -/
def sessionNewOk (currentSessionId : Option String) (sid : String) : Bool :=
  match currentSessionId with
  | none => true
  | some t => if t.isEmpty then true else t != sid

/-- The expression `(chunk.content as string) || fallbackText` of the error branch: a
non-empty string content is used; a non-string content object is truthy and
is stored as-is (kept as its rendering); null/absent/empty fall back. -/
def errorContentOf (content : Option CVal) (fallbackText : String) : String :=
  match content with
  | some (.str s) => if s.isEmpty then fallbackText else s
  | some (.jsonv pretty _) => pretty
  | some .null => fallbackText
  | none => fallbackText

/-- The session-creation step of `handleChunk` (`client.ts` lines 228–250):
on a started event whose frame carries a truthy session id that is new
relative to `currentSessionId`, and which is not already known, prepend a
session entry named after the submitted message. -/
def sessionStep (chunk : RunResponse) (currentSessionId : Option String)
    (messageContent : String) (now : Int) (c : Client) : Client :=
  match chunk.session_id with
  | some sid =>
    if !sid.isEmpty && sessionNewOk currentSessionId sid then
      if c.state.sessions.any (fun s => s.session_id == sid) then c
      else
        let entry : SessionEntry :=
          { session_id := sid, session_name := messageContent,
            created_at := toSafeISOString now chunk.created_at }
        { c with state := { c.state with sessions := entry :: c.state.sessions } }
    else c
  | none => c

/-- The RunPaused branch of `handleChunk` (`client.ts` lines 252–271):
stop streaming, mark paused, record the frame's run id, and select the
tools list as `a || b || c || d || []` — the first *present* list (a present
empty array is truthy in JS and is selected). Returns before touching the
message ledger. -/
def applyRunPaused (chunk : RunResponse) (c : Client) : Client :=
  let selected := (ov chunk.tools_awaiting_external_execution
    (ov chunk.tools_requiring_confirmation
      (ov chunk.tools_requiring_user_input chunk.tools))).getD []
  { c with state := { c.state with
      isStreaming := false, isPaused := true, pausedRunId := chunk.run_id,
      toolsAwaitingExecution := some selected } }

/-- The error branch of `handleChunk` (`client.ts` lines 273–298): record
the error text, flag the last message, and, when the frame carries a truthy
session id, remove every known session with that id. -/
def applyErrorChunk (chunk : RunResponse) (c : Client) : Client :=
  let fallbackText :=
    if chunk.event = .TeamRunCancelled then "Run cancelled" else "Error during run"
  let errorContent := errorContentOf chunk.content fallbackText
  let c := { c with
    state := { c.state with errorMessage := some errorContent },
    messages := updateLastMessage (fun m => { m with streamingError := some true }) c.messages }
  match chunk.session_id with
  | some sid =>
    if !sid.isEmpty then
      { c with state := { c.state with
          sessions := c.state.sessions.filter (fun s => s.session_id != sid) } }
    else c
  | none => c

/-- The default branch of `handleChunk` (`client.ts` lines 300–310): fold
the frame into the last message through the event processor, threading the
processor's accumulator. An empty ledger is unchanged (the updater never
runs). -/
def applyDefaultChunk (chunk : RunResponse) (c : Client) : Client :=
  match c.messages.getLast? with
  | none => c
  | some lm =>
    let r := processChunk c.procLastContent chunk (some lm)
    { c with
      procLastContent := r.1,
      messages := updateLastMessage (fun prev => r.2.getD prev) c.messages }

/-- Source `AgnoClient.handleChunk` (`client.ts` lines 224–310): session creation
for started events (falling through to normal processing), then the pause,
error, and default branches. -/
def handleChunk (chunk : RunResponse) (currentSessionId : Option String)
    (messageContent : String) (now : Int) (c : Client) : Client :=
  let c1 :=
    if isStartedEvent chunk.event then
      sessionStep chunk currentSessionId messageContent now c
    else c
  if chunk.event = .RunPaused then applyRunPaused chunk c1
  else if isErrorChunkEvent chunk.event then applyErrorChunk chunk c1
  else applyDefaultChunk chunk c1

/-- Source `AgnoClient.handleError` (`client.ts` lines 315–333): stop streaming,
record the message, flag the last ledger entry, and remove every known
session whose id equals the (truthy) tracked session id. `isPaused` and
`pausedRunId` are not touched. -/
def handleError (errMessage : String) (sessionId : Option String) (c : Client) : Client :=
  let c := { c with
    state := { c.state with isStreaming := false, errorMessage := some errMessage },
    messages := updateLastMessage (fun m => { m with streamingError := some true }) c.messages }
  match sessionId with
  | some sid =>
    if !sid.isEmpty then
      { c with state := { c.state with
          sessions := c.state.sessions.filter (fun s => s.session_id != sid) } }
    else c
  | none => c

/-- The synchronous prefix of `AgnoClient.sendMessage` (`client.ts` lines
113–164), up to the point where the network request is issued: reject when
already streaming (only `isStreaming` is consulted — a paused client is not
rejected) or no entity is selected; otherwise mark streaming, drop a failed
previous turn (failed agent message preceded by a user message), append the
user message and the placeholder agent message, and reset the processor.
`nowSec` is `Math.floor(Date.now() / 1000)`. -/
def sendMessageStart (c : Client) (message : String) (nowSec : Int) :
    Except String Client :=
  if c.state.isStreaming then .error "Already streaming a message"
  else if !c.config.hasEntity then .error "No agent or team selected"
  else
    let c := { c with state := { c.state with isStreaming := true, errorMessage := none } }
    let doRemove :=
      match c.messages.getLast? with
      | some lastMessage =>
        truthyOB lastMessage.streamingError &&
          (match secondLastMessage c.messages with
           | some m => m.role == "user"
           | none => false)
      | none => false
    let c := if doRemove then { c with messages := removeLastMessages 2 c.messages } else c
    let userMsg : ChatMessage :=
      { role := "user", content := some message, created_at := some (.fin nowSec) }
    let placeholder : ChatMessage :=
      { role := "agent", content := some "", tool_calls := some [],
        streamingError := some false, created_at := some (.fin (nowSec + 1)) }
    .ok { c with messages := c.messages ++ [userMsg, placeholder], procLastContent := "" }

/-- The synchronous prefix of `AgnoClient.continueRun` (`client.ts` lines
560–587), up to the point where the continue request is issued: reject in
team mode, reject when not paused or no truthy paused run id, reject when no
entity is selected; otherwise clear the pause flag and mark streaming
(`pausedRunId` stays set until the continue stream completes). -/
def continueRunStart (c : Client) : Except String Client :=
  if c.config.mode = .team then
    .error "HITL (Human-in-the-Loop) frontend tool execution is not supported for teams. Only agents support the continue endpoint."
  else if !(c.state.isPaused && truthyOS c.state.pausedRunId) then
    .error "No paused run to continue"
  else if !c.config.hasEntity then .error "No agent or team selected"
  else .ok { c with state := { c.state with isPaused := false, isStreaming := true } }

/-- The `onComplete` callback of `sendMessage` (`client.ts` lines 206–211):
the stream closed; clear the streaming flag. -/
def onSendStreamComplete (c : Client) : Client :=
  { c with state := { c.state with isStreaming := false } }

/-- The `onComplete` callback of `continueRun` (`client.ts` lines 627–634):
the continue stream closed; clear the streaming flag, the paused run id and
the awaiting-tools list (`isPaused` is not touched). -/
def onContinueStreamComplete (c : Client) : Client :=
  { c with state := { c.state with
      isStreaming := false, pausedRunId := none, toolsAwaitingExecution := none } }

/-- Whether an `Except` result is the error case (a synchronous rejection). -/
def exceptErr : Except String Client → Bool
  | .error _ => true
  | .ok _ => false

/-- The ledger size of a successful result, `none` on a rejection; used to
observe that a call went through and mutated the ledger. -/
def exceptOkMsgCount : Except String Client → Option Nat
  | .ok c => some c.messages.length
  | .error _ => none

/-- A run record of a bulk history response (`RunSchema`): one user input
plus one agent response. `created_at` is the already-parsed timestamp in
seconds (`new Date(...).getTime() / 1000` is abstracted; `none` when the
raw field is absent or falsy). -/
structure RunSchema where
  run_input : Option String := none
  content : Option CVal := none
  tools : Option (List ToolRec) := none
  reasoning_messages : Option (List ToolRec) := none
  reasoning_steps : Option (List String) := none
  references : Option String := none
  created_at : Option Int := none
  images : Option String := none
  videos : Option String := none
  audio : Option String := none
  response_audio : Option RespAudio := none
deriving DecidableEq

/-- The tool-call object built from an entry of a run's direct `tools`
array (`session-manager.ts` lines 146–159): every field defaulted with
`??`, `created_at` forced to the run timestamp. -/
def toolRecToToolCall (timestamp : Int) (t : ToolRec) : ToolCall :=
  { role := some "tool",
    content := some (t.content.getD ""),
    tool_call_id := some (t.tool_call_id.getD ""),
    tool_name := some (t.tool_name.getD ""),
    tool_args := some (t.tool_args.getD ""),
    tool_call_error := some (t.tool_call_error.getD false),
    metricsTime := some (t.metricsTime.getD 0),
    created_at := some timestamp }

/-- The tool-call object built from a `role === 'tool'` entry of a run's
`reasoning_messages` array (`session-manager.ts` lines 165–178):
like the direct form, but keeping the entry's own `created_at` when
present. -/
def reasoningRecToToolCall (timestamp : Int) (t : ToolRec) : ToolCall :=
  { role := some "tool",
    content := some (t.content.getD ""),
    tool_call_id := some (t.tool_call_id.getD ""),
    tool_name := some (t.tool_name.getD ""),
    tool_args := some (t.tool_args.getD ""),
    tool_call_error := some (t.tool_call_error.getD false),
    metricsTime := some (t.metricsTime.getD 0),
    created_at := some (t.created_at.getD timestamp) }

/-- Source `SessionManager.convertRunsToMessages` (`session-manager.ts` lines
122–216): per run, a user message when `run_input` is truthy, then an agent
message whose `tool_calls` are the direct tools followed by (not merged
with) the `role === 'tool'` reasoning messages. `nowSec` is
`Math.floor(Date.now() / 1000)`. -/
def convertRunsToMessages (nowSec : Int) (runs : List RunSchema) : List ChatMessage :=
  runs.foldl (fun messages run =>
    let timestamp := match run.created_at with
      | some t => t
      | none => nowSec
    let messages := match run.run_input with
      | some input =>
        if !input.isEmpty then
          let userMsg : ChatMessage :=
            { role := "user", content := some input, created_at := some (.fin timestamp) }
          messages ++ [userMsg]
        else messages
      | none => messages
    let toolCalls :=
      (run.tools.getD []).map (toolRecToToolCall timestamp) ++
      ((run.reasoning_messages.getD []).filter (fun m => m.role == some "tool")).map
        (reasoningRecToToolCall timestamp)
    let contentStr := match run.content with
      | some (.str s) => s
      | some (.jsonv _ compact) => compact
      | some .null => ""
      | none => ""
    let extraData : Option ExtraData :=
      if run.reasoning_messages.isSome || run.reasoning_steps.isSome ||
          run.references.isSome then
        some { reasoning_messages := run.reasoning_messages,
               reasoning_steps := run.reasoning_steps,
               references := run.references }
      else none
    let agentMsg : ChatMessage :=
      { role := "agent", content := some contentStr,
        tool_calls := if toolCalls.length > 0 then some toolCalls else none,
        extra_data := extraData,
        images := run.images, videos := run.videos, audio := run.audio,
        response_audio := run.response_audio,
        created_at := some (.fin (timestamp + 1)) }
    messages ++ [agentMsg]) []

/-- Source `SessionManager.convertSessionToMessages` (`session-manager.ts` lines
111–116). -/
def convertSessionToMessages (nowSec : Int) (runs : List RunSchema) : List ChatMessage :=
  convertRunsToMessages nowSec runs

/-- Modelled from the spec: the source file `parsers/stream-parser.ts`
(the StreamDecoder of §4.1) is not among the provided sources, so the
decoder state is modelled from §4.1's words: the accumulated bytes of the
current top-level JSON value, the bracket-nesting depth, and whether the
scan is inside a string literal or right after a backslash escape. -/
structure DecState where
  buf : List Nat
  depth : Nat
  inStr : Bool
  esc : Bool
deriving DecidableEq

/-- The decoder's initial state: between frames. -/
def decInit : DecState := { buf := [], depth := 0, inStr := false, esc := false }

/-- Modelled from the spec (§4.1, the missing `parsers/stream-parser.ts`):
consume one byte of the incoming stream. Between frames (depth 0),
non-`{` separator bytes are skipped and `{` (byte 123) opens a frame.
Inside a frame the byte is accumulated and the nesting depth is tracked
across string literals (`"` = 34) and escapes (`\` = 92); when a closing
`}`/`]` (125/93) returns the depth to zero, the accumulated bytes are
yielded as one complete frame. Working on bytes makes a split inside a
multi-byte UTF-8 character a plain chunk boundary (continuation bytes are
≥ 128 and match none of the structural bytes). -/
def feedByte (s : DecState) (b : Nat) : Option (List Nat) × DecState :=
  if s.depth = 0 then
    if b = 123 then (none, { buf := [b], depth := 1, inStr := false, esc := false })
    else (none, s)
  else
    let buf := s.buf ++ [b]
    if s.esc then (none, { s with buf := buf, esc := false })
    else if s.inStr then
      if b = 92 then (none, { s with buf := buf, esc := true })
      else if b = 34 then (none, { s with buf := buf, inStr := false })
      else (none, { s with buf := buf })
    else if b = 34 then (none, { s with buf := buf, inStr := true })
    else if b = 123 ∨ b = 91 then (none, { s with buf := buf, depth := s.depth + 1 })
    else if b = 125 ∨ b = 93 then
      if s.depth = 1 then (some buf, decInit)
      else (none, { s with buf := buf, depth := s.depth - 1 })
    else (none, { s with buf := buf })

/-- One step of the decoder fold: feed a byte, appending any completed
frame to the output list. -/
def feedStep (p : List (List Nat) × DecState) (b : Nat) : List (List Nat) × DecState :=
  let r := feedByte p.2 b
  (p.1 ++ (match r.1 with | some f => [f] | none => []), r.2)

/-- Modelled from the spec: `feed(chunk)` — decode one delivered chunk,
yielding the completed frames in arrival order and the carried-over state. -/
def feed (s : DecState) (bs : List Nat) : List (List Nat) × DecState :=
  bs.foldl feedStep ([], s)

/-- One chunk-level step: decode the chunk from the carried-over state and
append its frames. -/
def feedAllStep (p : List (List Nat) × DecState) (ch : List Nat) :
    List (List Nat) × DecState :=
  let r := feed p.2 ch
  (p.1 ++ r.1, r.2)

/-- Feeding a list of chunks one call at a time, concatenating the yielded
frames. -/
def feedAll (s : DecState) (chunks : List (List Nat)) : List (List Nat) × DecState :=
  chunks.foldl feedAllStep ([], s)

/-- The claim's selection rule for RunPaused as the spec words it: the first
NON-EMPTY list among the externally-awaited tools, the
confirmation-required tools, the input-required tools, and the generic
tools; the empty list when none is non-empty. (Stated from the claim's
words, to be compared against what `applyRunPaused` computes.) -/
def specFirstNonEmptyTools (chunk : RunResponse) : List ToolCall :=
  let pick : Option (List ToolCall) → List ToolCall → List ToolCall := fun o rest =>
    match o with
    | some l => if l.length > 0 then l else rest
    | none => rest
  pick chunk.tools_awaiting_external_execution
    (pick chunk.tools_requiring_confirmation
      (pick chunk.tools_requiring_user_input
        (pick chunk.tools [])))

/-- Reachable client states. Each constructor applies one public operation
or one asynchronous callback exactly as the code performs it. The `send`
constructor additionally records the discipline that `sendMessage` is only
initiated while no run is paused — the code itself does not check
`isPaused`, and without this restriction the mutual-exclusion invariant is
false (see the C3 counterexample). -/
inductive Reach : Client → Prop where
  | init (config : Config) : Reach (initClient config)
  | send (c c' : Client) (message : String) (nowSec : Int) :
      Reach c → c.state.isPaused = false →
      sendMessageStart c message nowSec = .ok c' → Reach c'
  | chunkArrives (c : Client) (chunk : RunResponse) (sid : Option String)
      (mc : String) (now : Int) :
      Reach c → Reach (handleChunk chunk sid mc now c)
  | errorArrives (c : Client) (e : String) (sid : Option String) :
      Reach c → Reach (handleError e sid c)
  | sendStreamEnds (c : Client) : Reach c → Reach (onSendStreamComplete c)
  | continueStarts (c c' : Client) :
      Reach c → continueRunStart c = .ok c' → Reach c'
  | continueStreamEnds (c : Client) : Reach c → Reach (onContinueStreamComplete c)

/-- The placeholder agent message as `sendMessage` appends it (empty
content, empty tool list, no error); the concrete timestamp is irrelevant
to content accumulation. -/
def agentPlaceholder : ChatMessage :=
  { role := "agent", content := some "", tool_calls := some [],
    streamingError := some false, created_at := some (.fin 1) }

/-- A RunContent frame carrying (cumulative) string content and nothing
else. -/
def mkContentFrame (s : String) : RunResponse :=
  { event := .RunContent, content := some (.str s) }

/-- Folding a list of cumulative RunContent payloads into a fresh placeholder
agent message through the event processor, starting from a reset
accumulator — the streaming content path of one run. -/
def runContents (cs : List String) : String × Option ChatMessage :=
  cs.foldl (fun p s => processChunk p.1 (mkContentFrame s) p.2) ("", some agentPlaceholder)

/-- Each payload extends the previous one as a prefix (the server resends
cumulative content). -/
def cumulativeChain (prev : String) : List String → Bool
  | [] => true
  | c :: rest => prev.data.isPrefixOf c.data && cumulativeChain c rest

/-- The message shape produced by one string-content RunContent frame with
no tool or extra fields: content replaced by the full payload, the
tool-call list re-materialized (an absent list becomes a present empty
list). -/
def contentUpdated (m : ChatMessage) (c : String) : ChatMessage :=
  { m with content := some c, tool_calls := some (m.tool_calls.getD []) }

/-- The last element of a list, with a default for the empty list. -/
def lastD : List String → String → String
  | [], d => d
  | c :: rest, _ => lastD rest c

/-- The content payloads of the spec's accumulation example. -/
def demoContents : List String := ["Hel", "Hello wor", "Hello world!"]

/-- A default agent-mode configuration with an entity selected. -/
def cfg0 : Config := {}

/-- A RunPaused frame that carries no run id — legal on the wire, where
`run_id` is optional. -/
def pauseFrameNoRunId : RunResponse := { event := .RunPaused }

/-- The client state right after a fresh client processes
`pauseFrameNoRunId` during a send. -/
def pausedNoIdClient : Client :=
  handleChunk pauseFrameNoRunId none "hi" 0 (initClient cfg0)

/-- A client sitting in the paused state (as left by a RunPaused frame that
did carry a run id): not streaming, paused. -/
def cPausedClient : Client :=
  { config := cfg0,
    state := { isStreaming := false, isPaused := true, pausedRunId := some "r1",
               toolsAwaitingExecution := some [] } }

/-- A client that already knows session `s0` from before the current run. -/
def cWithOldSession : Client :=
  { config := cfg0,
    state := { sessions := [{ session_id := "s0", session_name := "old chat",
                              created_at := 1600000000000 }] } }

/-- A RunError frame naming the pre-existing session `s0`. -/
def errFrameS0 : RunResponse := { event := .RunError, session_id := some "s0" }

/-- A concrete tool call with id `t1`. -/
def t1tool : ToolCall := { tool_call_id := some "t1", tool_name := some "lookup" }

/-- A RunPaused frame whose externally-awaited list is present but EMPTY
while the generic `tools` list is non-empty. -/
def pauseFrameEmptyAwait : RunResponse :=
  { event := .RunPaused, run_id := some "r1",
    tools_awaiting_external_execution := some [],
    tools := some [t1tool] }

/-- A history tool record with id `t1`. -/
def recT1 : ToolRec := { tool_call_id := some "t1", tool_name := some "lookup" }

/-- A history run record carrying the `t1` tool **both** in its direct tool
list and in its reasoning-message list. -/
def hydRunDup : RunSchema :=
  { run_input := some "q",
    tools := some [recT1],
    reasoning_messages := some [{ recT1 with role := some "tool" }] }

/-- An incoming tool call with a degenerate identity: no `tool_call_id` and
a falsy `created_at` of `0` — every identity check in `processToolCall`
fails for it. -/
def tcDegenerate : ToolCall := { tool_name := some "f", created_at := some 0 }

/-- An incoming tool call with a proper id, for the idempotence witness. -/
def tcWithId : ToolCall := { tool_call_id := some "id1", tool_name := some "f" }

/-- A client currently streaming a run. -/
def cStreamingClient : Client := { config := cfg0, state := { isStreaming := true } }

/-- The pre-existing session entry of `cWithOldSession`. -/
def oldSessionEntry : SessionEntry :=
  { session_id := "s0", session_name := "old chat", created_at := 1600000000000 }

/-!  Theorems  -/

/-- Claim C10 (confirmed): for every frame, if the current last message is
undefined or its role is not `agent`, `EventProcessor.processChunk` returns
that message value unchanged and leaves the accumulator untouched — the
frame is silently ignored and no message field is modified. -/
theorem C10_non_agent_frames_ignored (lastContent : String) (chunk : RunResponse)
    (lastMessage : Option ChatMessage)
    (h : lastMessage = none ∨ ∃ m, lastMessage = some m ∧ m.role ≠ "agent") :
    processChunk lastContent chunk lastMessage = (lastContent, lastMessage) := by
  rcases h with h | ⟨m, rfl, hr⟩
  · subst h; rfl
  · simp [processChunk, hr]

/-- Witness for C10: a frame arriving on an empty ledger is ignored. -/
theorem C10_witness : processChunk "" (mkContentFrame "x") none = ("", none) :=
  C10_non_agent_frames_ignored "" (mkContentFrame "x") none (Or.inl rfl)

/-- Claim C9 (confirmed): a frame-supplied unix-seconds `created_at` that is
non-finite or lands outside [2000-01-01, 2100-01-01] produces the current
time; an in-range value is converted exactly (seconds times 1000). `now` is
`Date.now()`, which lies inside the valid range. -/
theorem C9_timestamp_clamping (now : Int) (timestamp : Option NumVal)
    (hnow : MIN_TIMESTAMP ≤ now ∧ now ≤ MAX_TIMESTAMP) :
    (∀ s : Int, timestamp = some (.fin s) →
      s * 1000 < MIN_TIMESTAMP ∨ s * 1000 > MAX_TIMESTAMP →
      toSafeISOString now timestamp = now) ∧
    ((timestamp = some .nan ∨ timestamp = some .posInf ∨ timestamp = some .negInf) →
      toSafeISOString now timestamp = now) ∧
    (∀ s : Int, timestamp = some (.fin s) →
      MIN_TIMESTAMP ≤ s * 1000 → s * 1000 ≤ MAX_TIMESTAMP →
      toSafeISOString now timestamp = s * 1000) := by
  obtain ⟨hn1, hn2⟩ := hnow
  refine ⟨?_, ?_, ?_⟩
  · rintro s rfl hs
    by_cases h0 : s = 0
    · subst h0
      simp only [toSafeISOString, ne_eq, not_true_eq_false, if_false]
      split <;> rfl
    · simp only [toSafeISOString, ne_eq, h0, not_false_eq_true, if_true]
      rw [if_pos]
      simp only [MIN_TIMESTAMP, MAX_TIMESTAMP] at hs ⊢
      omega
  · rintro (rfl | rfl | rfl)
    · simp [toSafeISOString]
    · rfl
    · rfl
  · rintro s rfl hmin hmax
    have h0 : s ≠ 0 := by
      intro h; subst h
      simp only [MIN_TIMESTAMP] at hmin
      omega
    simp only [toSafeISOString, ne_eq, h0, not_false_eq_true, if_true]
    rw [if_neg]
    omega

/-- Witness for C9: `created_at = -1` yields the current time. -/
theorem C9_witness :
    toSafeISOString 1760000000000 (some (.fin (-1))) = 1760000000000 :=
  (C9_timestamp_clamping 1760000000000 (some (.fin (-1))) (by constructor <;> decide)).1
    (-1) rfl (by left; decide)

/-- Feeding bytes with a non-empty frame accumulator only prepends the
accumulator to the frames produced from the empty accumulator. -/
theorem feed_acc (bs : List Nat) : ∀ (acc : List (List Nat)) (s : DecState),
    bs.foldl feedStep (acc, s) = (acc ++ (feed s bs).1, (feed s bs).2) := by
  induction bs with
  | nil => intro acc s; simp [feed]
  | cons b rest ih =>
    intro acc s
    simp only [feed, List.foldl_cons]
    rw [show feedStep (acc, s) b =
      ((feedStep (acc, s) b).1, (feedStep (acc, s) b).2) from rfl, ih]
    rw [show feedStep (([] : List (List Nat)), s) b =
      ((feedStep ([], s) b).1, (feedStep ([], s) b).2) from rfl, ih]
    simp [feedStep, List.append_assoc]

/-- Feeding chunks with a non-empty frame accumulator only prepends the
accumulator. -/
theorem feedAll_acc (chunks : List (List Nat)) : ∀ (acc : List (List Nat)) (s : DecState),
    chunks.foldl feedAllStep (acc, s) =
      (acc ++ (feedAll s chunks).1, (feedAll s chunks).2) := by
  induction chunks with
  | nil => intro acc s; simp [feedAll]
  | cons ch rest ih =>
    intro acc s
    simp only [feedAll, List.foldl_cons]
    rw [show feedAllStep (acc, s) ch =
      ((feedAllStep (acc, s) ch).1, (feedAllStep (acc, s) ch).2) from rfl, ih]
    rw [show feedAllStep (([] : List (List Nat)), s) ch =
      ((feedAllStep ([], s) ch).1, (feedAllStep ([], s) ch).2) from rfl, ih]
    simp [feedAllStep, List.append_assoc]

/-- Claim C8 (confirmed, decoder modelled from §4.1 of the spec): feeding
any byte stream to the decoder in any chunking yields exactly the frame
sequence (and final state) of feeding the whole buffer in one call — in
particular for every valid serialized frame sequence and every partition of
its bytes, including splits inside multi-byte characters and literals. -/
theorem C8_chunk_boundary_invariance (chunks : List (List Nat)) (s : DecState) :
    feedAll s chunks = feed s chunks.flatten := by
  induction chunks generalizing s with
  | nil => simp [feedAll, feed]
  | cons ch rest ih =>
    have h1 : feedAll s (ch :: rest) =
        ((feed s ch).1 ++ (feedAll (feed s ch).2 rest).1,
          (feedAll (feed s ch).2 rest).2) := by
      simp only [feedAll, List.foldl_cons]
      rw [show feedAllStep (([] : List (List Nat)), s) ch =
        ((feed s ch).1, (feed s ch).2) from by simp [feedAllStep]]
      rw [feedAll_acc]
      rfl
    have h2 : feed s (ch :: rest).flatten =
        ((feed s ch).1 ++ (feed (feed s ch).2 rest.flatten).1,
          (feed (feed s ch).2 rest.flatten).2) := by
      show feed s (ch ++ rest.flatten) = _
      simp only [feed, List.foldl_append]
      rw [show ch.foldl feedStep (([] : List (List Nat)), s) =
        ((feed s ch).1, (feed s ch).2) from rfl]
      rw [feed_acc]
      rfl
    rw [h1, h2, ih]

/-- Nested fallback `a ?? (a ?? b)` collapses. -/
theorem ov_absorb {α : Type} (a b : Option α) : ov a (ov a b) = ov a b := by
  cases a <;> rfl

/-- Self fallback `a ?? a` collapses. -/
theorem ov_self {α : Type} (a : Option α) : ov a a = a := by
  cases a <;> rfl

/-- Re-spreading the same incoming tool call is absorbed. -/
theorem mergeTC_absorb (e tc : ToolCall) : mergeTC (mergeTC e tc) tc = mergeTC e tc := by
  simp [mergeTC, ov_absorb]

/-- Spreading a tool call over itself is the identity. -/
theorem mergeTC_self (tc : ToolCall) : mergeTC tc tc = tc := by
  cases tc
  simp [mergeTC, ov_self]

/-- Function `processToolCall` (findIndex, overwrite in place / append) equals the
single-pass first-match traversal. -/
theorem processToolCall_eq_mergeAux (toolCall : ToolCall) (l : List ToolCall) :
    processToolCall toolCall l = mergeAux toolCall (tcMatches toolCall) l := by
  induction l with
  | nil => rfl
  | cons e rest ih =>
    by_cases hp : tcMatches toolCall e = true
    · simp [processToolCall, jsFindIndex, hp, mergeAux, List.getD]
    · have hp' : tcMatches toolCall e = false := by simpa using hp
      cases hfi : jsFindIndex (tcMatches toolCall) rest with
      | none =>
        have ihn : rest ++ [toolCall] = mergeAux toolCall (tcMatches toolCall) rest := by
          rw [← ih]; simp [processToolCall, hfi]
        simp [processToolCall, jsFindIndex, hp', hfi, mergeAux, ihn]
      | some i =>
        have ihs : rest.set i (mergeTC (rest.getD i default) toolCall) =
            mergeAux toolCall (tcMatches toolCall) rest := by
          rw [← ih]; simp [processToolCall, hfi]
        simp only [processToolCall, jsFindIndex, hp', Bool.false_eq_true, if_false,
          hfi, Option.map_some, mergeAux]
        rw [← ihs]
        simp [List.getD]

/-- First-match merging is idempotent whenever the predicate accepts the
incoming call, survives the overwrite, and the overwrite is absorbing. -/
theorem mergeAux_idem (toolCall : ToolCall) (p : ToolCall → Bool)
    (hp : p toolCall = true)
    (hmerge : ∀ e, p e = true → p (mergeTC e toolCall) = true)
    (habs : ∀ e, mergeTC (mergeTC e toolCall) toolCall = mergeTC e toolCall)
    (hself : mergeTC toolCall toolCall = toolCall) :
    ∀ l, mergeAux toolCall p (mergeAux toolCall p l) = mergeAux toolCall p l := by
  intro l
  induction l with
  | nil => simp [mergeAux, hp, hself]
  | cons e rest ih =>
    by_cases hpe : p e = true
    · simp [mergeAux, hpe, hmerge e hpe, habs e]
    · have hpe' : p e = false := by simpa using hpe
      simp [mergeAux, hpe', ih]

/-- Under a sound identity (a truthy id, or a truthy name and timestamp),
the incoming call matches itself. -/
theorem tcMatches_self (toolCall : ToolCall)
    (h : truthyOS toolCall.tool_call_id = true ∨
      (truthyOS toolCall.tool_name = true ∧ truthyOI toolCall.created_at = true)) :
    tcMatches toolCall toolCall = true := by
  rcases h with h | ⟨hn, hc⟩
  · simp [tcMatches, h]
  · by_cases hid : truthyOS toolCall.tool_call_id = true
    · simp [tcMatches, hid]
    · have hid' : truthyOS toolCall.tool_call_id = false := by simpa using hid
      simp [tcMatches, hid', hn, hc, tcKey]

/-- Under a sound identity, an entry that matched still matches after the
overwrite. -/
theorem tcMatches_merge (toolCall e : ToolCall)
    (h : truthyOS toolCall.tool_call_id = true ∨
      (truthyOS toolCall.tool_name = true ∧ truthyOI toolCall.created_at = true))
    (he : tcMatches toolCall e = true) :
    tcMatches toolCall (mergeTC e toolCall) = true := by
  by_cases hid : truthyOS toolCall.tool_call_id = true
  · -- the merged entry carries exactly the incoming (truthy) id
    obtain ⟨s, hs⟩ : ∃ s, toolCall.tool_call_id = some s := by
      cases hid2 : toolCall.tool_call_id with
      | none => rw [hid2] at hid; simp [truthyOS] at hid
      | some s => exact ⟨s, rfl⟩
    have : (mergeTC e toolCall).tool_call_id = toolCall.tool_call_id := by
      simp [mergeTC, hs, ov]
    simp [tcMatches, this, hid]
  · have hid' : truthyOS toolCall.tool_call_id = false := by simpa using hid
    rcases h with h | ⟨hn, hc⟩
    · rw [hid'] at h; cases h
    · -- the first disjunct of the entry's match is impossible: a truthy
      -- entry id equal to the incoming id would make the incoming id truthy
      have hfirst : (truthyOS e.tool_call_id && (e.tool_call_id == toolCall.tool_call_id))
          = false := by
        by_cases het : truthyOS e.tool_call_id = true
        · rw [het]
          simp only [Bool.true_and]
          by_cases heq : e.tool_call_id = toolCall.tool_call_id
          · rw [heq] at het; rw [het] at hid'; cases hid'
          · simpa using heq
        · have het' : truthyOS e.tool_call_id = false := by simpa using het
          rw [het']; rfl
      rw [tcMatches, hfirst] at he
      simp only [Bool.false_or, Bool.and_eq_true] at he
      obtain ⟨⟨⟨het, _⟩, _⟩, hkey⟩ := he
      -- the merged entry keeps a non-truthy id and takes the incoming
      -- name and timestamp
      obtain ⟨nm, hnm⟩ : ∃ nm, toolCall.tool_name = some nm := by
        cases hx : toolCall.tool_name with
        | none => rw [hx] at hn; simp [truthyOS] at hn
        | some nm => exact ⟨nm, rfl⟩
      obtain ⟨cr, hcr⟩ : ∃ cr, toolCall.created_at = some cr := by
        cases hx : toolCall.created_at with
        | none => rw [hx] at hc; simp [truthyOI] at hc
        | some cr => exact ⟨cr, rfl⟩
      have hmid : truthyOS (mergeTC e toolCall).tool_call_id = false := by
        cases hx : toolCall.tool_call_id with
        | none =>
          have : (mergeTC e toolCall).tool_call_id = e.tool_call_id := by
            simp [mergeTC, hx, ov]
          rw [this]
          simpa using het
        | some s =>
          have : (mergeTC e toolCall).tool_call_id = some s := by
            simp [mergeTC, hx, ov]
          rw [this, ← hx, hid']
      have hkey2 : fallbackKey (mergeTC e toolCall) = fallbackKey toolCall := by
        simp [fallbackKey, mergeTC, hnm, hcr, ov]
      simp [tcMatches, hmid, hn, hc, hkey2, tcKey, hid']

/-- Claim C7 (corrected): merging the same tool call twice yields the same
list as merging it once, provided the incoming call has a sound identity —
a truthy `tool_call_id`, or (when the id is absent or empty) a truthy
`tool_name` and a truthy (non-zero) `created_at` for the fallback key. With
a degenerate identity every match fails and the call is appended again (see
the counterexample). -/
theorem C7_tool_merge_idempotent (toolCall : ToolCall) (prev : List ToolCall)
    (h : truthyOS toolCall.tool_call_id = true ∨
      (truthyOS toolCall.tool_name = true ∧ truthyOI toolCall.created_at = true)) :
    processToolCall toolCall (processToolCall toolCall prev) =
      processToolCall toolCall prev := by
  rw [processToolCall_eq_mergeAux, processToolCall_eq_mergeAux]
  exact mergeAux_idem toolCall (tcMatches toolCall) (tcMatches_self _ h)
    (fun e he => tcMatches_merge _ e h he) (fun e => mergeTC_absorb e toolCall)
    (mergeTC_self _) prev

/-- Witness for C7: a tool call with a proper id merges idempotently. -/
theorem C7_witness :
    (truthyOS tcWithId.tool_call_id = true ∨
      (truthyOS tcWithId.tool_name = true ∧ truthyOI tcWithId.created_at = true)) ∧
    processToolCall tcWithId (processToolCall tcWithId []) =
      processToolCall tcWithId [] :=
  ⟨Or.inl (by decide), C7_tool_merge_idempotent tcWithId [] (Or.inl (by decide))⟩

/-- Counterexample for C7 as stated: a tool call without a `tool_call_id`
and with `created_at = 0` (a legal unix timestamp, but falsy in JS) is
appended twice — applying the same ToolCall frame twice does NOT yield the
same list as applying it once. -/
theorem C7_counterexample :
    processToolCall tcDegenerate (processToolCall tcDegenerate []) ≠
      processToolCall tcDegenerate [] := by
  decide

/-- When the pattern is a prefix of the input, removing its first occurrence
removes exactly that prefix. -/
theorem replFirstAux_of_isPrefixOf (pat l : List Char) (h : pat.isPrefixOf l = true) :
    replFirstAux pat l = some (l.drop pat.length) := by
  cases l with
  | nil => simp [replFirstAux, h]
  | cons c rest => simp [replFirstAux, h]

/-- A boolean prefix yields an explicit decomposition. -/
theorem isPrefixOf_exists {pat l : List Char} (h : pat.isPrefixOf l = true) :
    ∃ t, l = pat ++ t := by
  induction pat generalizing l with
  | nil => exact ⟨l, rfl⟩
  | cons a pa ih =>
    cases l with
    | nil => simp [List.isPrefixOf] at h
    | cons b lb =>
      simp only [List.isPrefixOf, Bool.and_eq_true, beq_iff_eq] at h
      obtain ⟨rfl, hpre⟩ := h
      obtain ⟨t, rfl⟩ := ih hpre
      exact ⟨t, rfl⟩

/-- Rebuilding a string from its character data is the identity. -/
theorem strMk_data : ∀ s : String, String.mk s.data = s
  | ⟨_⟩ => rfl

/-- On cumulative content, `replace(lastContent, '')` computes exactly the
not-yet-applied suffix, and appending it reconstitutes the full payload. -/
theorem strCat_jsReplaceFirst (st c : String) (h : st.data.isPrefixOf c.data = true) :
    strCat st (jsReplaceFirst c st) = c := by
  obtain ⟨t, ht⟩ := isPrefixOf_exists h
  rw [jsReplaceFirst, replFirstAux_of_isPrefixOf _ _ h]
  simp only [Option.getD_some, strCat]
  rw [show List.drop st.data.length c.data = t from by rw [ht, List.drop_left]]
  show String.mk (st.data ++ t) = c
  rw [← ht, strMk_data]

/-- One cumulative RunContent frame folded into an agent message whose
content equals the accumulator: the content becomes the frame's payload and
the accumulator follows. -/
theorem processChunk_content_step (lm : ChatMessage) (st c : String)
    (hrole : lm.role = "agent") (hcontent : lm.content = some st)
    (hpre : st.data.isPrefixOf c.data = true) :
    processChunk st (mkContentFrame c) (some lm) = (c, some (contentUpdated lm c)) := by
  simp only [processChunk, mkContentFrame, hrole, ne_eq, not_true_eq_false, if_false,
    processChunkToolCalls, Option.none_bind, jsGet, hcontent, Option.getD_some, ov,
    contentUpdated]
  rw [strCat_jsReplaceFirst st c hpre]

/-- Folding a cumulative chain of RunContent frames from a synced state
ends with the last payload as both accumulator and message content. -/
theorem runContents_aux (cs : List String) :
    ∀ (m : ChatMessage) (st : String), m.role = "agent" → m.content = some st →
    cumulativeChain st cs = true →
    ∃ m', cs.foldl (fun p s => processChunk p.1 (mkContentFrame s) p.2) (st, some m) =
        (lastD cs st, some m') ∧ m'.content = some (lastD cs st) ∧
        m'.role = "agent" := by
  induction cs with
  | nil =>
    intro m st h1 h2 _
    exact ⟨m, by simp [lastD], by simp [lastD, h2], h1⟩
  | cons c rest ih =>
    intro m st h1 h2 hchain
    simp only [cumulativeChain, Bool.and_eq_true] at hchain
    obtain ⟨hpre, hrest⟩ := hchain
    simp only [List.foldl_cons]
    rw [processChunk_content_step m st c h1 h2 hpre]
    have hres := ih (contentUpdated m c) c h1 rfl hrest
    simpa [lastD] using hres

/-- Claim C6 (confirmed): when each RunContent frame's content extends the
previous frame's content as a prefix (cumulative streaming), folding the
frames from an empty agent message and a reset processor produces final
content exactly equal to the last payload, with no duplicated text — in
particular `"Hel"`, `"Hello wor"`, `"Hello world!"` yields
`"Hello world!"`. -/
theorem C6_content_accumulation (cs : List String) (h : cumulativeChain "" cs = true) :
    ∃ m', runContents cs = (lastD cs "", some m') ∧
      m'.content = some (lastD cs "") := by
  obtain ⟨m', h1, h2, _⟩ := runContents_aux cs agentPlaceholder "" rfl rfl h
  exact ⟨m', h1, h2⟩

/-- Witness for C6: the spec's example payloads produce exactly
`"Hello world!"`. -/
theorem C6_witness :
    cumulativeChain "" demoContents = true ∧
    ∃ m', runContents demoContents = ("Hello world!", some m') ∧
      m'.content = some "Hello world!" :=
  ⟨by decide, C6_content_accumulation demoContents (by decide)⟩

/-- Claim C5 (corrected): the session hydrator does NOT merge the two tool
sources by identity — the agent message's `tool_calls` are the direct tool
list followed by the `role === 'tool'` reasoning entries, plainly
concatenated, so their count is the sum of the two source counts, and an
identity present in both sources appears twice (see the counterexample). -/
theorem toolCallsLenAux (tc : List ToolCall) (a b : Nat) (hlen : tc.length = a + b) :
    ((if tc.length > 0 then some tc else none).getD []).length = a + b := by
  split
  · simpa using hlen
  · simp only [Option.getD_none, List.length_nil]
    omega

theorem C5_hydration_concatenates_tools (nowSec : Int) (run : RunSchema) :
    ∃ agentMsg, (convertSessionToMessages nowSec [run]).getLast? = some agentMsg ∧
      agentMsg.role = "agent" ∧
      (agentMsg.tool_calls.getD []).length =
        (run.tools.getD []).length +
        ((run.reasoning_messages.getD []).filter
          (fun m => m.role == some "tool")).length := by
  simp only [convertSessionToMessages, convertRunsToMessages, List.foldl_cons,
    List.foldl_nil, List.nil_append]
  cases hri : run.run_input with
  | none =>
    refine ⟨_, by rw [List.getLast?_concat], rfl, ?_⟩
    exact toolCallsLenAux _ _ _ (by simp [List.length_append, List.length_map])
  | some input =>
    by_cases hemp : input.isEmpty = true
    · simp only [hemp, Bool.not_true, Bool.false_eq_true, if_false]
      refine ⟨_, by rw [List.getLast?_concat], rfl, ?_⟩
      exact toolCallsLenAux _ _ _ (by simp [List.length_append, List.length_map])
    · have hemp' : input.isEmpty = false := by simpa using hemp
      simp only [hemp', Bool.not_false, if_true]
      refine ⟨_, by rw [List.getLast?_concat], rfl, ?_⟩
      exact toolCallsLenAux _ _ _ (by simp [List.length_append, List.length_map])

/-- Counterexample for C5 as stated: a run carrying the same tool-call id
`t1` in its direct tool list and in its reasoning-message list produces an
agent message in which the identity `t1` occurs TWICE (and each source
contains it once). -/
theorem C5_counterexample :
    (hydRunDup.tools.getD []).length = 1 ∧
    ((hydRunDup.reasoning_messages.getD []).filter
      (fun m => m.role == some "tool")).length = 1 ∧
    ((convertSessionToMessages 100 [hydRunDup]).getLast?).map
      (fun m => ((m.tool_calls.getD []).filter
        (fun t => t.tool_call_id == some "t1")).length) = some 2 := by
  refine ⟨by decide, by decide, by decide⟩

/-- A RunPaused frame reduces `handleChunk` to its pause branch. -/
theorem handleChunk_runPaused (chunk : RunResponse) (sid : Option String)
    (mc : String) (now : Int) (c : Client) (h : chunk.event = .RunPaused) :
    handleChunk chunk sid mc now c = applyRunPaused chunk c := by
  simp [handleChunk, h, isStartedEvent, isErrorChunkEvent]

/-- Claim C4 (corrected): processing a RunPaused frame sets `isPaused`,
clears `isStreaming`, records the frame's run id, leaves the message ledger
(in particular the last message's content) untouched, and sets
`toolsAwaitingExecution` to the first PRESENT list among the
externally-awaited, confirmation-required, input-required and generic tool
lists (the empty list when none is present). A present-but-empty earlier
list wins over a later non-empty one — not "first non-empty" (see the
counterexample). -/
theorem C4_run_paused_effect (chunk : RunResponse) (sid : Option String) (mc : String)
    (now : Int) (c : Client) (h : chunk.event = .RunPaused) :
    ((handleChunk chunk sid mc now c).state.isPaused = true) ∧
    ((handleChunk chunk sid mc now c).state.isStreaming = false) ∧
    ((handleChunk chunk sid mc now c).state.pausedRunId = chunk.run_id) ∧
    ((handleChunk chunk sid mc now c).messages = c.messages) ∧
    (∀ l, chunk.tools_awaiting_external_execution = some l →
      (handleChunk chunk sid mc now c).state.toolsAwaitingExecution = some l) ∧
    (chunk.tools_awaiting_external_execution = none →
      ∀ l, chunk.tools_requiring_confirmation = some l →
      (handleChunk chunk sid mc now c).state.toolsAwaitingExecution = some l) ∧
    (chunk.tools_awaiting_external_execution = none →
      chunk.tools_requiring_confirmation = none →
      ∀ l, chunk.tools_requiring_user_input = some l →
      (handleChunk chunk sid mc now c).state.toolsAwaitingExecution = some l) ∧
    (chunk.tools_awaiting_external_execution = none →
      chunk.tools_requiring_confirmation = none →
      chunk.tools_requiring_user_input = none →
      ∀ l, chunk.tools = some l →
      (handleChunk chunk sid mc now c).state.toolsAwaitingExecution = some l) ∧
    (chunk.tools_awaiting_external_execution = none →
      chunk.tools_requiring_confirmation = none →
      chunk.tools_requiring_user_input = none →
      chunk.tools = none →
      (handleChunk chunk sid mc now c).state.toolsAwaitingExecution = some []) := by
  rw [handleChunk_runPaused chunk sid mc now c h]
  refine ⟨rfl, rfl, rfl, rfl, ?_, ?_, ?_, ?_, ?_⟩
  · intro l hl
    simp [applyRunPaused, hl, ov]
  · intro h1 l hl
    simp [applyRunPaused, h1, hl, ov]
  · intro h1 h2 l hl
    simp [applyRunPaused, h1, h2, hl, ov]
  · intro h1 h2 h3 l hl
    simp [applyRunPaused, h1, h2, h3, hl, ov]
  · intro h1 h2 h3 h4
    simp [applyRunPaused, h1, h2, h3, h4, ov]

/-- Witness for C4: a concrete RunPaused frame pauses the client, and its
present (empty) externally-awaited list is selected. -/
theorem C4_witness :
    (handleChunk pauseFrameEmptyAwait none "" 0 (initClient cfg0)).state.isPaused = true ∧
    (handleChunk pauseFrameEmptyAwait none "" 0
      (initClient cfg0)).state.toolsAwaitingExecution = some [] :=
  ⟨(C4_run_paused_effect pauseFrameEmptyAwait none "" 0 (initClient cfg0) rfl).1,
   (C4_run_paused_effect pauseFrameEmptyAwait none "" 0
     (initClient cfg0) rfl).2.2.2.2.1 [] rfl⟩

/-- Counterexample for C4 as stated: on a frame whose externally-awaited
list is present but EMPTY while its generic `tools` list holds one tool,
the code selects the empty list, not the first non-empty list (which the
claim, following the spec's words, would require). -/
theorem C4_counterexample :
    (handleChunk pauseFrameEmptyAwait none "" 0
      (initClient cfg0)).state.toolsAwaitingExecution = some [] ∧
    specFirstNonEmptyTools pauseFrameEmptyAwait = [t1tool] ∧
    some ([] : List ToolCall) ≠ some [t1tool] := by
  refine ⟨by decide, by decide, by decide⟩

/-- Claim C3 (corrected): `sendMessage` is rejected synchronously (no state
or ledger mutation) when `isStreaming` is true — but ONLY `isStreaming` is
consulted: a paused, non-streaming client does not reject a new
`sendMessage` (see the counterexample). `continueRun` is rejected
synchronously when the configured mode is team or when no run is paused. -/
theorem C3_single_flight (c : Client) (message : String) (nowSec : Int) :
    (c.state.isStreaming = true →
      sendMessageStart c message nowSec = .error "Already streaming a message") ∧
    ((c.config.mode = Mode.team ∨ c.state.isPaused = false) →
      exceptErr (continueRunStart c) = true) := by
  constructor
  · intro h
    simp [sendMessageStart, h]
  · intro h
    rcases h with h | h
    · simp [continueRunStart, h, exceptErr]
    · by_cases hm : c.config.mode = Mode.team
      · simp [continueRunStart, hm, exceptErr]
      · simp [continueRunStart, hm, h, exceptErr]

/-- Witness for C3: a streaming client rejects `sendMessage`; a
non-paused client rejects `continueRun`. -/
theorem C3_witness :
    sendMessageStart cStreamingClient "hi" 10 = .error "Already streaming a message" ∧
    exceptErr (continueRunStart cStreamingClient) = true :=
  ⟨(C3_single_flight cStreamingClient "hi" 10).1 rfl,
   (C3_single_flight cStreamingClient "hi" 10).2 (Or.inr rfl)⟩

/-- Counterexample for C3 as stated: a paused (non-streaming) client does
NOT reject `sendMessage` — the call succeeds and appends two messages to
the previously empty ledger. -/
theorem C3_counterexample :
    cPausedClient.state.isPaused = true ∧ cPausedClient.state.isStreaming = false ∧
    exceptOkMsgCount (sendMessageStart cPausedClient "hi" 10) = some 2 := by
  refine ⟨rfl, rfl, by decide⟩

/-- A terminal-error frame reduces `handleChunk` to its error branch. -/
theorem handleChunk_errorEvent (chunk : RunResponse) (sid : Option String)
    (mc : String) (now : Int) (c : Client) (h : isErrorChunkEvent chunk.event = true) :
    handleChunk chunk sid mc now c = applyErrorChunk chunk c := by
  cases hev : chunk.event <;>
    simp only [hev, isErrorChunkEvent, Bool.false_eq_true] at h <;>
    simp [handleChunk, hev, isStartedEvent, isErrorChunkEvent]

/-- Claim C2 (corrected): a terminal-error frame carrying a (truthy) session
id removes every known session with that id — unconditionally, whether or
not the session was created during the current run; likewise a transport
error removes every session matching the tracked session id. In particular
a session introduced by RunStarted in this run is absent after a RunError
frame carrying its id; but the removal is NOT restricted to sessions
created during the run (see the counterexample). -/
theorem C2_session_rollback :
    (∀ (chunk : RunResponse) (sid : Option String) (mc : String) (now : Int)
        (c : Client) (s : String),
      isErrorChunkEvent chunk.event = true → chunk.session_id = some s →
      s.isEmpty = false →
      ((handleChunk chunk sid mc now c).state.sessions.all
        (fun e => e.session_id != s)) = true) ∧
    (∀ (msg s : String) (c : Client), s.isEmpty = false →
      ((handleError msg (some s) c).state.sessions.all
        (fun e => e.session_id != s)) = true) := by
  constructor
  · intro chunk sid mc now c s hev hsid hne
    rw [handleChunk_errorEvent chunk sid mc now c hev]
    simp only [applyErrorChunk, hsid, hne, Bool.not_false, if_true]
    simp only [List.all_eq_true, List.mem_filter, Bool.and_eq_true, and_imp]
    intro e _ hkeep
    exact hkeep
  · intro msg s c hne
    simp only [handleError, hne, Bool.not_false, if_true]
    simp only [List.all_eq_true, List.mem_filter, Bool.and_eq_true, and_imp]
    intro e _ hkeep
    exact hkeep

/-- Witness for C2: after a RunError frame carrying session id `s0`, no
session named `s0` survives — applied at a concrete client and frame. -/
theorem C2_witness :
    ((handleChunk errFrameS0 (some "s0") "" 0 cWithOldSession).state.sessions.all
      (fun e => e.session_id != "s0")) = true :=
  C2_session_rollback.1 errFrameS0 (some "s0") "" 0 cWithOldSession "s0"
    rfl rfl (by decide)

/-- Counterexample for C2 as stated: the session `s0` existed BEFORE the
run (it was not created during it), yet a RunError frame carrying
`session_id = "s0"` removes it — "a pre-existing session is never removed
by a run error" is false. -/
theorem C2_counterexample :
    cWithOldSession.state.sessions = [oldSessionEntry] ∧
    (handleChunk errFrameS0 (some "s0") "" 0 cWithOldSession).state.sessions = [] := by
  refine ⟨rfl, by decide⟩

/-- The session-creation step only touches the session list: the streaming
and pause flags and the paused run id are unchanged. -/
theorem sessionStep_flags (chunk : RunResponse) (sid : Option String) (mc : String)
    (now : Int) (c : Client) :
    (sessionStep chunk sid mc now c).state.isStreaming = c.state.isStreaming ∧
    (sessionStep chunk sid mc now c).state.isPaused = c.state.isPaused := by
  unfold sessionStep
  refine ⟨?_, ?_⟩ <;> (split <;> (try split) <;> (try split) <;> rfl)

/-- The error branch only touches the error message, the ledger flag and
the session list: the streaming and pause flags are unchanged. -/
theorem applyErrorChunk_flags (chunk : RunResponse) (c : Client) :
    (applyErrorChunk chunk c).state.isStreaming = c.state.isStreaming ∧
    (applyErrorChunk chunk c).state.isPaused = c.state.isPaused := by
  unfold applyErrorChunk
  refine ⟨?_, ?_⟩ <;> (split <;> (try split) <;> (try split) <;> rfl)

/-- The default branch leaves the run state untouched entirely. -/
theorem applyDefaultChunk_state (chunk : RunResponse) (c : Client) :
    (applyDefaultChunk chunk c).state = c.state := by
  unfold applyDefaultChunk
  cases h : c.messages.getLast? with
  | none => rfl
  | some lm => rfl

/-- Frame processing preserves the mutual exclusion of `isStreaming` and
`isPaused` (the pause branch clears `isStreaming` outright). -/
theorem handleChunk_ME (chunk : RunResponse) (sid : Option String) (mc : String)
    (now : Int) (c : Client)
    (h : c.state.isStreaming = false ∨ c.state.isPaused = false) :
    (handleChunk chunk sid mc now c).state.isStreaming = false ∨
    (handleChunk chunk sid mc now c).state.isPaused = false := by
  have h1 :
      (if isStartedEvent chunk.event then sessionStep chunk sid mc now c
        else c).state.isStreaming = c.state.isStreaming ∧
      (if isStartedEvent chunk.event then sessionStep chunk sid mc now c
        else c).state.isPaused = c.state.isPaused := by
    split
    · exact sessionStep_flags chunk sid mc now c
    · exact ⟨rfl, rfl⟩
  unfold handleChunk
  by_cases hp : chunk.event = .RunPaused
  · rw [if_pos hp]
    exact Or.inl rfl
  · rw [if_neg hp]
    by_cases he : isErrorChunkEvent chunk.event = true
    · rw [if_pos he]
      rcases h with h | h
      · exact Or.inl (by rw [(applyErrorChunk_flags _ _).1, h1.1, h])
      · exact Or.inr (by rw [(applyErrorChunk_flags _ _).2, h1.2, h])
    · rw [if_neg he]
      rcases h with h | h
      · exact Or.inl (by rw [congrArg ClientState.isStreaming (applyDefaultChunk_state _ _), h1.1, h])
      · exact Or.inr (by rw [congrArg ClientState.isPaused (applyDefaultChunk_state _ _), h1.2, h])

/-- A transport error always clears the streaming flag. -/
theorem handleError_isStreaming (msg : String) (sid : Option String) (c : Client) :
    (handleError msg sid c).state.isStreaming = false := by
  unfold handleError
  split <;> (try split) <;> rfl

/-- A successful synchronous `sendMessage` prefix marks streaming and does
not touch the pause flag. -/
theorem sendMessageStart_ok (c c' : Client) (m : String) (n : Int)
    (h : sendMessageStart c m n = .ok c') :
    c'.state.isStreaming = true ∧ c'.state.isPaused = c.state.isPaused := by
  unfold sendMessageStart at h
  split at h
  · cases h
  · split at h
    · cases h
    · have hx := Except.ok.inj h
      subst hx
      constructor
      · split
        · rfl
        · rfl
      · split
        · rfl
        · rfl

/-- A successful synchronous `continueRun` prefix marks streaming and
clears the pause flag. -/
theorem continueRunStart_ok (c c' : Client) (h : continueRunStart c = .ok c') :
    c'.state.isStreaming = true ∧ c'.state.isPaused = false := by
  unfold continueRunStart at h
  split at h
  · cases h
  · split at h
    · cases h
    · split at h
      · cases h
      · have hx := Except.ok.inj h
        subst hx
        exact ⟨rfl, rfl⟩

/-- Claim C1 (corrected): along every execution in which `sendMessage` is
only initiated while no run is paused, `isStreaming` and `isPaused` are
never both true; and processing a RunPaused frame always leaves
`isStreaming = false`, `isPaused = true`, and `pausedRunId` equal to the
frame's (possibly absent) run id. The biconditional "`pausedRunId` is set
iff `isPaused`" does not hold on the code (see the counterexample: a
RunPaused frame without a run id yields `isPaused = true` with
`pausedRunId` undefined). -/
theorem C1_runstate_invariant :
    (∀ c, Reach c →
      c.state.isStreaming = false ∨ c.state.isPaused = false) ∧
    (∀ (chunk : RunResponse) (sid : Option String) (mc : String) (now : Int)
        (c : Client), chunk.event = .RunPaused →
      (handleChunk chunk sid mc now c).state.isPaused = true ∧
      (handleChunk chunk sid mc now c).state.isStreaming = false ∧
      (handleChunk chunk sid mc now c).state.pausedRunId = chunk.run_id) := by
  constructor
  · intro c h
    induction h with
    | init config => exact Or.inl rfl
    | send c c' m n _ hpause hok _ =>
      exact Or.inr (by rw [(sendMessageStart_ok c c' m n hok).2, hpause])
    | chunkArrives c chunk sid mc now _ ih => exact handleChunk_ME chunk sid mc now c ih
    | errorArrives c e sid _ _ => exact Or.inl (handleError_isStreaming e sid c)
    | sendStreamEnds c _ _ => exact Or.inl rfl
    | continueStarts c c' _ hok => exact Or.inr (continueRunStart_ok c c' hok).2
    | continueStreamEnds c _ _ => exact Or.inl rfl
  · intro chunk sid mc now c h
    rw [handleChunk_runPaused chunk sid mc now c h]
    exact ⟨rfl, rfl, rfl⟩

/-- Witness for C1: the invariant applied to a concretely reached state,
and the RunPaused effect applied to a concrete frame. -/
theorem C1_witness :
    ((initClient cfg0).state.isStreaming = false ∨
      (initClient cfg0).state.isPaused = false) ∧
    (handleChunk pauseFrameEmptyAwait none "" 0 cPausedClient).state.isPaused = true :=
  ⟨C1_runstate_invariant.1 (initClient cfg0) (Reach.init cfg0),
   (C1_runstate_invariant.2 pauseFrameEmptyAwait none "" 0 cPausedClient rfl).1⟩

/-- Counterexample for C1 as stated: the state reached by sending and then
receiving a RunPaused frame that carries no run id is paused with
`pausedRunId` undefined — "`pausedRunId` is set iff `isPaused`" fails. -/
theorem C1_counterexample :
    Reach pausedNoIdClient ∧ pausedNoIdClient.state.isPaused = true ∧
    pausedNoIdClient.state.pausedRunId = none :=
  ⟨Reach.chunkArrives (initClient cfg0) pauseFrameNoRunId none "hi" 0 (Reach.init cfg0),
   by decide, by decide⟩

end Agno
